import Mathlib

/-! Shallow embedding of the HAG art-gallery storefront server and client cart.

The embedding follows the source files:
* `src/server/routes.ts`   — the Express route handlers (payment intent,
  order creation, artwork reorder),
* `src/server/storage.ts`  — the `DatabaseStorage` class over Postgres
  (customers, orders, order items, artworks, slug-uniqueness loop),
* `src/shared/schema.ts`   — the table shapes and `generateSlug`,
* `src/client/src/pages/ArtworkDetail.tsx` — the client-side cart
  (`addToCart`, `handleAddOriginalToCart`).

Monetary values (JS numbers holding decimal dollar amounts) are modelled
as rationals; serial primary keys as naturals; Postgres rows as Lean
structures; tables as lists in insertion order (a Postgres `SELECT`
without `ORDER BY` in this code base is only ever used through `find?`
style single-row reads, so list order stands in for physical row order).
A thrown JS/Postgres error is an `Except`/flagged result.
-/

namespace HAG

/-- Purchase type of a line item: the `'original' | 'print'` union in
`ArtworkDetail.tsx` and the `type` column of `order_items`. -/
inductive PType where
  | original
  | print
deriving DecidableEq, Repr

/-- A client cart line item (`CartItem` in `ArtworkDetail.tsx` /
`Cart.tsx`), which is also the shape the `POST /api/orders` handler reads
from `req.body.orderItems`. -/
structure CartItem where
  id : String
  artworkId : Nat
  type : PType
  printSize : Option String
  quantity : Nat
  unitPrice : ℚ
deriving DecidableEq, Repr

/-- A row of the `artworks` table (the columns the modelled operations
touch). `displayOrder` is the integer sort column. -/
structure Artwork where
  id : Nat
  title : String
  slug : String
  originalPrice : Option ℚ
  originalAvailable : Bool
  originalSold : Bool
  displayOrder : Int
deriving DecidableEq, Repr

/-- A row of the `customers` table. -/
structure Customer where
  id : Nat
  firstName : String
  lastName : String
  email : String
  phone : Option String
  address : Option String
  city : Option String
  zipCode : Option String
  country : Option String
deriving DecidableEq, Repr

/-- The customer fields posted by the checkout form
(`req.body.customerData`), i.e. `InsertCustomer` sans the serial id. -/
structure InsertCustomer where
  firstName : String
  lastName : String
  email : String
  phone : Option String
  address : Option String
  city : Option String
  zipCode : Option String
  country : Option String
deriving DecidableEq, Repr

/-- A row of the `orders` table (monetary columns and status). -/
structure Order where
  id : Nat
  customerId : Nat
  subtotalAmount : ℚ
  shippingAmount : ℚ
  totalAmount : ℚ
  status : String
deriving DecidableEq, Repr

/-- A row of the `order_items` table. -/
structure OrderItem where
  id : Nat
  orderId : Nat
  artworkId : Nat
  type : PType
  printSize : Option String
  quantity : Nat
  unitPrice : ℚ
  totalPrice : ℚ
deriving DecidableEq, Repr

/-- The persistent database state: the tables the modelled routes touch,
plus the next value of each `serial` primary-key sequence. -/
structure Db where
  artworks : List Artwork
  customers : List Customer
  orders : List Order
  orderItems : List OrderItem
  nextArtworkId : Nat
  nextCustomerId : Nat
  nextOrderId : Nat
  nextOrderItemId : Nat
deriving DecidableEq, Repr

/-! Storage layer (`src/server/storage.ts`). -/

/-- Embeds `DatabaseStorage.getCustomerByEmail`: first `customers` row whose
`email` equals the argument. -/
def getCustomerByEmail (db : Db) (email : String) : Option Customer :=
  db.customers.find? (fun c => c.email = email)

/-- Embeds `DatabaseStorage.createCustomer`: inserts a row, the serial sequence
supplying the id, and returns the inserted row. -/
def createCustomer (db : Db) (data : InsertCustomer) : Db × Customer :=
  let c : Customer :=
    { id := db.nextCustomerId
      firstName := data.firstName
      lastName := data.lastName
      email := data.email
      phone := data.phone
      address := data.address
      city := data.city
      zipCode := data.zipCode
      country := data.country }
  ({ db with customers := db.customers ++ [c],
             nextCustomerId := db.nextCustomerId + 1 }, c)

/-- Embeds `DatabaseStorage.createOrder`: inserts an `orders` row and returns it. -/
def createOrder (db : Db) (customerId : Nat) (subtotalAmount shippingAmount totalAmount : ℚ)
    (status : String) : Db × Order :=
  let o : Order :=
    { id := db.nextOrderId
      customerId := customerId
      subtotalAmount := subtotalAmount
      shippingAmount := shippingAmount
      totalAmount := totalAmount
      status := status }
  ({ db with orders := db.orders ++ [o], nextOrderId := db.nextOrderId + 1 }, o)

/-- Errors raised below the route handlers: a Postgres foreign-key
violation on insert, or a JS `TypeError` (property access on
`undefined`). -/
inductive DbError where
  | fkViolation
  | typeError
deriving DecidableEq, Repr

/-- Embeds `DatabaseStorage.addOrderItem`: inserts an `order_items` row. The
`artwork_id` column `references artworks.id`, so Postgres rejects the
insert when no such artwork exists. -/
def addOrderItem (db : Db) (orderId artworkId : Nat) (type : PType)
    (printSize : Option String) (quantity : Nat) (unitPrice totalPrice : ℚ) :
    Except DbError (Db × OrderItem) :=
  if db.artworks.any (fun a => a.id = artworkId) then
    let oi : OrderItem :=
      { id := db.nextOrderItemId
        orderId := orderId
        artworkId := artworkId
        type := type
        printSize := printSize
        quantity := quantity
        unitPrice := unitPrice
        totalPrice := totalPrice }
    .ok ({ db with orderItems := db.orderItems ++ [oi],
                   nextOrderItemId := db.nextOrderItemId + 1 }, oi)
  else
    .error .fkViolation

/-! Pricing (`POST /api/orders` handler, `routes.ts` lines 202–211). -/

/-- The handler's subtotal loop:
`let subtotal = 0; for (const item of items) subtotal += item.unitPrice * item.quantity;`. -/
def subtotalOf (items : List CartItem) : ℚ :=
  items.foldl (fun s it => s + it.unitPrice * (it.quantity : ℚ)) 0

/-- Embeds `items.some(item => item.type === 'original')`. -/
def hasOriginals (items : List CartItem) : Bool :=
  items.any (fun it => it.type = PType.original)

/-- Embeds `subtotal >= 100 ? 0 : (hasOriginals ? 25 : 15)`. -/
def shippingCostOf (items : List CartItem) : ℚ :=
  if subtotalOf items ≥ 100 then 0 else if hasOriginals items then 25 else 15

/-- The server-side total for a cart: subtotal plus shipping, exactly as
the order-creation handler computes it. -/
def computeTotal (items : List CartItem) : ℚ :=
  subtotalOf items + shippingCostOf items

/-! Route `POST /api/create-payment-intent` (`routes.ts` lines 151–187). -/

/-- JavaScript `Math.round`: round half toward positive infinity. -/
def jsRound (x : ℚ) : ℤ := ⌊x + 1/2⌋

/-- Outcome of the payment-intent route: a 400 for a missing/non-positive
amount, or a Stripe intent carrying `Math.round(amount * 100)` cents. -/
inductive PaymentIntentResp where
  | invalidAmount
  | intent (amountCents : ℤ)
deriving DecidableEq, Repr

/-- The `POST /api/create-payment-intent` handler: reads `amount` from the
request body (`const { amount, customerData } = req.body`), rejects
`!amount || amount <= 0`, and otherwise creates an intent for
`Math.round(amount * 100)` cents. It consults no cart and no stored
state. -/
def createPaymentIntentHandler (amount : ℚ) : PaymentIntentResp :=
  if amount ≤ 0 then .invalidAmount
  else .intent (jsRound (amount * 100))

/-! Route `POST /api/orders` (`routes.ts` lines 192–240). -/

/-- The customer-resolution prefix of the orders handler:
`let customer = await storage.getCustomerByEmail(customerData.email);
if (!customer) customer = await storage.createCustomer(customerData);`. -/
def resolveCustomer (db : Db) (customerData : InsertCustomer) : Db × Customer :=
  match getCustomerByEmail db customerData.email with
  | some c => (db, c)
  | none => createCustomer db customerData

/-- The `for (const item of items) await storage.addOrderItem(...)` loop.
Each insert the database accepts is committed individually; on the first
rejected insert the loop stops with the rows committed so far. -/
def addOrderItemsLoop (db : Db) (orderId : Nat) :
    List CartItem → Option DbError × Db
  | [] => (none, db)
  | it :: rest =>
    match addOrderItem db orderId it.artworkId it.type it.printSize
        it.quantity it.unitPrice (it.unitPrice * (it.quantity : ℚ)) with
    | .error e => (some e, db)
    | .ok (db', _) => addOrderItemsLoop db' orderId rest

/-- HTTP response of the orders route: `201` with the created order, or
`500` from the handler's `catch` block. -/
inductive OrdersResp where
  | created (o : Order)
  | serverError
deriving DecidableEq, Repr

/-- The `POST /api/orders` handler: resolve the customer, total the cart,
persist the order row (status `pending`), then append the item rows; any
thrown error is caught and answered with a 500 after the writes already
made have committed. -/
def createOrderHandler (db : Db) (customerData : InsertCustomer)
    (items : List CartItem) : OrdersResp × Db :=
  let rc := resolveCustomer db customerData
  let subtotal := subtotalOf items
  let shippingCost := shippingCostOf items
  let totalAmount := subtotal + shippingCost
  let co := createOrder rc.1 rc.2.id subtotal shippingCost totalAmount "pending"
  match addOrderItemsLoop co.1 co.2.id items with
  | (some _, db3) => (.serverError, db3)
  | (none, db3) => (.created co.2, db3)

/-! Basic lemmas about the pricing computation. -/

theorem subtotalOf_foldl_acc (items : List CartItem) :
    ∀ a : ℚ, items.foldl (fun s it => s + it.unitPrice * (it.quantity : ℚ)) a
      = a + (items.map (fun it => it.unitPrice * (it.quantity : ℚ))).sum := by
  induction items with
  | nil => intro a; simp
  | cons it rest ih =>
    intro a
    simp only [List.foldl_cons, List.map_cons, List.sum_cons, ih]
    ring

/-- The handler's accumulation loop computes exactly
`Σ unitPrice × quantity` over the cart. -/
theorem subtotalOf_eq_sum (items : List CartItem) :
    subtotalOf items
      = (items.map (fun it => it.unitPrice * (it.quantity : ℚ))).sum := by
  simpa [subtotalOf] using subtotalOf_foldl_acc items 0

theorem hasOriginals_iff (items : List CartItem) :
    hasOriginals items = true ↔ ∃ it ∈ items, it.type = PType.original := by
  simp [hasOriginals, List.any_eq_true]

/-- C2: for every cart, the computed shippingCost is 0 when the subtotal
(the sum of unitPrice × quantity over the line items) meets the
free-shipping threshold 100; otherwise it is the higher original rate 25
when any line item has type original, and the print rate 15 when the cart
contains only prints. -/
theorem shipping_tiered_rule (items : List CartItem) :
    ((items.map (fun it => it.unitPrice * (it.quantity : ℚ))).sum ≥ 100 →
      shippingCostOf items = 0) ∧
    ((items.map (fun it => it.unitPrice * (it.quantity : ℚ))).sum < 100 →
      (∃ it ∈ items, it.type = PType.original) → shippingCostOf items = 25) ∧
    ((items.map (fun it => it.unitPrice * (it.quantity : ℚ))).sum < 100 →
      (∀ it ∈ items, it.type ≠ PType.original) → shippingCostOf items = 15) := by
  have hsub := subtotalOf_eq_sum items
  refine ⟨fun h => ?_, fun h horig => ?_, fun h hnone => ?_⟩
  · rw [shippingCostOf, if_pos (by rw [hsub]; exact h)]
  · rw [shippingCostOf, if_neg (by rw [hsub]; exact not_le.mpr h),
      if_pos ((hasOriginals_iff items).mpr horig)]
  · rw [shippingCostOf, if_neg (by rw [hsub]; exact not_le.mpr h), if_neg ?_]
    simp only [hasOriginals_iff items]
    rintro ⟨it, hmem, hty⟩
    exact hnone it hmem hty

/-! Lemmas about the order-creation handler. -/

theorem resolveCustomer_orders (db : Db) (cd : InsertCustomer) :
    (resolveCustomer db cd).1.orders = db.orders := by
  unfold resolveCustomer
  cases getCustomerByEmail db cd.email <;> simp [createCustomer]

theorem resolveCustomer_orderItems (db : Db) (cd : InsertCustomer) :
    (resolveCustomer db cd).1.orderItems = db.orderItems := by
  unfold resolveCustomer
  cases getCustomerByEmail db cd.email <;> simp [createCustomer]

/-- Shape of the item-insertion loop's final state: the rows it committed
are appended to the `order_items` table, each recomputed as
`totalPrice = unitPrice × quantity` and keyed to the given order; the
`orders` table is untouched by the loop. -/
theorem addOrderItemsLoop_spec (its : List CartItem) :
    ∀ db : Db, ∀ oid : Nat,
      ∃ new : List OrderItem,
        (addOrderItemsLoop db oid its).2.orderItems = db.orderItems ++ new ∧
        (addOrderItemsLoop db oid its).2.orders = db.orders ∧
        ∀ oi ∈ new, oi.orderId = oid ∧
          oi.totalPrice = oi.unitPrice * (oi.quantity : ℚ) := by
  induction its with
  | nil =>
    intro db oid
    exact ⟨[], by simp [addOrderItemsLoop], by simp [addOrderItemsLoop], by simp⟩
  | cons it rest ih =>
    intro db oid
    by_cases h : db.artworks.any (fun a => a.id = it.artworkId)
    · have hrow : addOrderItem db oid it.artworkId it.type it.printSize
          it.quantity it.unitPrice (it.unitPrice * (it.quantity : ℚ))
          = .ok ({ db with
              orderItems := db.orderItems ++
                [{ id := db.nextOrderItemId, orderId := oid,
                   artworkId := it.artworkId, type := it.type,
                   printSize := it.printSize, quantity := it.quantity,
                   unitPrice := it.unitPrice,
                   totalPrice := it.unitPrice * (it.quantity : ℚ) }],
              nextOrderItemId := db.nextOrderItemId + 1 },
            { id := db.nextOrderItemId, orderId := oid,
              artworkId := it.artworkId, type := it.type,
              printSize := it.printSize, quantity := it.quantity,
              unitPrice := it.unitPrice,
              totalPrice := it.unitPrice * (it.quantity : ℚ) }) := by
        simp [addOrderItem, h]
      obtain ⟨new, hitems, horders, hprops⟩ := ih { db with
          orderItems := db.orderItems ++
            [{ id := db.nextOrderItemId, orderId := oid,
               artworkId := it.artworkId, type := it.type,
               printSize := it.printSize, quantity := it.quantity,
               unitPrice := it.unitPrice,
               totalPrice := it.unitPrice * (it.quantity : ℚ) }],
          nextOrderItemId := db.nextOrderItemId + 1 } oid
      refine ⟨{ id := db.nextOrderItemId, orderId := oid,
                artworkId := it.artworkId, type := it.type,
                printSize := it.printSize, quantity := it.quantity,
                unitPrice := it.unitPrice,
                totalPrice := it.unitPrice * (it.quantity : ℚ) } :: new,
              ?_, ?_, ?_⟩
      · rw [addOrderItemsLoop, hrow]
        rw [hitems]
        simp
      · rw [addOrderItemsLoop, hrow]
        rw [horders]
      · intro oi hoi
        rcases List.mem_cons.mp hoi with rfl | hmem
        · exact ⟨rfl, rfl⟩
        · exact hprops oi hmem
    · have hrow : addOrderItem db oid it.artworkId it.type it.printSize
          it.quantity it.unitPrice (it.unitPrice * (it.quantity : ℚ))
          = .error .fkViolation := by
        simp [addOrderItem, h]
      exact ⟨[], by rw [addOrderItemsLoop, hrow]; simp,
             by rw [addOrderItemsLoop, hrow], by simp⟩

theorem shipping_tiered_rule_witness :
    shippingCostOf [⟨"1-print-0", 1, PType.print, some "16x20", 1, 120⟩] = 0 ∧
    shippingCostOf [⟨"2-original", 2, PType.original, none, 1, 90⟩] = 25 ∧
    shippingCostOf [⟨"1-print-1", 1, PType.print, some "8x10", 2, 20⟩] = 15 :=
  ⟨(shipping_tiered_rule [⟨"1-print-0", 1, PType.print, some "16x20", 1, 120⟩]).1
      (by norm_num),
   (shipping_tiered_rule [⟨"2-original", 2, PType.original, none, 1, 90⟩]).2.1
      (by norm_num) ⟨⟨"2-original", 2, PType.original, none, 1, 90⟩, by simp, rfl⟩,
   (shipping_tiered_rule [⟨"1-print-1", 1, PType.print, some "8x10", 2, 20⟩]).2.2
      (by norm_num) (by decide)⟩

theorem createOrder_fst_orders (db : Db) (cid : Nat) (s sh t : ℚ) (st : String) :
    (createOrder db cid s sh t st).1.orders
      = db.orders ++ [(createOrder db cid s sh t st).2] := rfl

theorem createOrder_fst_orderItems (db : Db) (cid : Nat) (s sh t : ℚ) (st : String) :
    (createOrder db cid s sh t st).1.orderItems = db.orderItems := rfl

theorem createOrder_snd (db : Db) (cid : Nat) (s sh t : ℚ) (st : String) :
    (createOrder db cid s sh t st).2
      = { id := db.nextOrderId, customerId := cid, subtotalAmount := s,
          shippingAmount := sh, totalAmount := t, status := st } := rfl

/-- C3: whatever the request, the single order row the `POST /api/orders`
handler appends satisfies `totalAmount = subtotal + shippingCost` with
`subtotal = Σ unitPrice × quantity` over the cart, and every order-item
row it appends has `totalPrice = unitPrice × quantity` recomputed
server-side. -/
theorem order_totals_invariant (db : Db) (cd : InsertCustomer) (items : List CartItem) :
    ∃ (o : Order) (newItems : List OrderItem),
      (createOrderHandler db cd items).2.orders = db.orders ++ [o] ∧
      (createOrderHandler db cd items).2.orderItems = db.orderItems ++ newItems ∧
      o.subtotalAmount = (items.map (fun it => it.unitPrice * (it.quantity : ℚ))).sum ∧
      o.shippingAmount = shippingCostOf items ∧
      o.totalAmount = o.subtotalAmount + o.shippingAmount ∧
      o.status = "pending" ∧
      ∀ oi ∈ newItems, oi.orderId = o.id ∧
        oi.totalPrice = oi.unitPrice * (oi.quantity : ℚ) := by
  simp only [createOrderHandler]
  set co := createOrder (resolveCustomer db cd).1 (resolveCustomer db cd).2.id
    (subtotalOf items) (shippingCostOf items)
    (subtotalOf items + shippingCostOf items) "pending" with hco
  obtain ⟨new, hitems, horders, hprops⟩ := addOrderItemsLoop_spec items co.1 co.2.id
  rcases hsplit : addOrderItemsLoop co.1 co.2.id items with ⟨e, db3⟩
  rw [hsplit] at hitems horders
  refine ⟨co.2, new, ?_, ?_, ?_, ?_, ?_, ?_, ?_⟩
  · cases e <;> simp only [] <;>
      rw [horders, hco, createOrder_fst_orders, resolveCustomer_orders]
  · cases e <;> simp only [] <;>
      rw [hitems, hco, createOrder_fst_orderItems, resolveCustomer_orderItems]
  · rw [hco, createOrder_snd, ← subtotalOf_eq_sum]
  · rw [hco, createOrder_snd]
  · rw [hco, createOrder_snd]
  · rw [hco, createOrder_snd]
  · exact hprops

/-! Claim C1: what amount the payment-intent route actually charges. -/

/-- C1 counterexample: the client posts `amount = 1` while the server-side
pricing of the cart `[print, qty 1, unitPrice 120]` is 120. The
`POST /api/create-payment-intent` handler creates an intent for 100 cents
(`Math.round(1 * 100)`), not for the 12000 cents the Pricing Engine total
would give: the handler charges the client-supplied total and never
recomputes from a cart. -/
theorem paymentIntent_uses_client_amount :
    createPaymentIntentHandler 1 = PaymentIntentResp.intent 100 ∧
    computeTotal [⟨"1-print-0", 1, PType.print, some "16x20", 1, 120⟩] = 120 ∧
    (100 : ℤ) ≠ jsRound (120 * 100) := by
  refine ⟨?_, ?_, ?_⟩
  · rw [createPaymentIntentHandler, if_neg (by norm_num)]
    norm_num [jsRound]
  · norm_num [computeTotal, subtotalOf, shippingCostOf, hasOriginals]
  · norm_num [jsRound]

/-! Claim C4: an order referencing a nonexistent artwork. -/

/-- Fixture for C4: a catalog holding only artwork 1, and an otherwise
empty database. -/
def dbC4 : Db :=
  { artworks := [⟨1, "Sunset", "sunset", some 90, true, false, 0⟩]
    customers := []
    orders := []
    orderItems := []
    nextArtworkId := 2
    nextCustomerId := 1
    nextOrderId := 1
    nextOrderItemId := 1 }

/-- Fixture for C4: the checkout form data. -/
def cdC4 : InsertCustomer :=
  ⟨"Ada", "L", "ada@example.com", none, none, none, none, none⟩

/-- C4 failing run: a cart line referencing artwork 2, which does not
exist in `dbC4`. The handler answers with the generic 500 from its
`catch` block (not a 404/NotFoundError), and the `orders` table ends up
holding the order row that was inserted before the item insert was
rejected — the store is changed on this error. -/
theorem order_row_persists_on_missing_artwork :
    (createOrderHandler dbC4 cdC4 [⟨"2-print-0", 2, PType.print, some "8x10", 1, 20⟩]).1
      = OrdersResp.serverError ∧
    (createOrderHandler dbC4 cdC4 [⟨"2-print-0", 2, PType.print, some "8x10", 1, 20⟩]).2.orders
      = [⟨1, 1, 20, 15, 35, "pending"⟩] := by
  refine ⟨by decide, ?_⟩
  simp only [createOrderHandler, resolveCustomer, getCustomerByEmail, createCustomer,
    createOrder, addOrderItemsLoop, addOrderItem, subtotalOf, shippingCostOf,
    hasOriginals, dbC4, cdC4]
  norm_num
  exact ⟨by decide, by rw [if_neg (by decide)]; norm_num⟩

/-! Claim C7: customer resolution. -/

/-- After one resolution, looking the email up again finds exactly the
customer the first resolution produced. -/
theorem getCustomerByEmail_after_resolve (db : Db) (cd : InsertCustomer) :
    getCustomerByEmail (resolveCustomer db cd).1 cd.email
      = some (resolveCustomer db cd).2 := by
  unfold resolveCustomer
  cases h : getCustomerByEmail db cd.email with
  | some c => exact h
  | none =>
    simp only [createCustomer, getCustomerByEmail] at h ⊢
    rw [List.find?_append, h]
    simp

/-- C7: customer resolution is idempotent — resolving the same checkout
data twice returns the same customer and leaves the customer table of the
first resolution untouched (no second row) — and when a customer with the
email already exists, resolution returns that stored row unchanged and
does not write at all. -/
theorem resolveCustomer_idempotent (db : Db) (cd : InsertCustomer) :
    (resolveCustomer (resolveCustomer db cd).1 cd).2 = (resolveCustomer db cd).2 ∧
    (resolveCustomer (resolveCustomer db cd).1 cd).1 = (resolveCustomer db cd).1 ∧
    ∀ c : Customer, getCustomerByEmail db cd.email = some c →
      resolveCustomer db cd = (db, c) := by
  refine ⟨?_, ?_, ?_⟩
  · rw [resolveCustomer, getCustomerByEmail_after_resolve]
  · rw [resolveCustomer, getCustomerByEmail_after_resolve]
  · intro c h
    rw [resolveCustomer, h]

/-- Witness for C7 at a one-customer store: the stored row is returned
unchanged and the store is not written. -/
theorem resolveCustomer_idempotent_witness :
    resolveCustomer
        { artworks := [], customers := [⟨1, "Ada", "L", "ada@example.com",
            none, none, none, none, none⟩],
          orders := [], orderItems := [], nextArtworkId := 1,
          nextCustomerId := 2, nextOrderId := 1, nextOrderItemId := 1 }
        ⟨"Ada", "Lovelace", "ada@example.com", none, none, none, none, none⟩
      = ({ artworks := [], customers := [⟨1, "Ada", "L", "ada@example.com",
            none, none, none, none, none⟩],
           orders := [], orderItems := [], nextArtworkId := 1,
           nextCustomerId := 2, nextOrderId := 1, nextOrderItemId := 1 },
         ⟨1, "Ada", "L", "ada@example.com", none, none, none, none, none⟩) :=
  (resolveCustomer_idempotent _ _).2.2
    ⟨1, "Ada", "L", "ada@example.com", none, none, none, none, none⟩ (by decide)

/-! Client cart (`src/client/src/pages/ArtworkDetail.tsx`). -/

/-- Embeds `addToCart`: look for the first line with the same
`(artworkId, type, printSize)` (the `findIndex` call); if found, add the
incoming quantity onto it (`existingCart[i].quantity += item.quantity`),
otherwise push the new line. -/
def addToCart : List CartItem → CartItem → List CartItem
  | [], item => [item]
  | ci :: rest, item =>
    if ci.artworkId = item.artworkId ∧ ci.type = item.type ∧
        ci.printSize = item.printSize then
      { ci with quantity := ci.quantity + item.quantity } :: rest
    else
      ci :: addToCart rest item

/-- Embeds `handleAddOriginalToCart`: a no-op when the original is unavailable or
sold, otherwise adds the line
`{id: artworkId-original, type: original, quantity: 1, unitPrice: parseFloat(originalPrice or 0)}`
through `addToCart`. -/
def handleAddOriginalToCart (artwork : Artwork) (cart : List CartItem) : List CartItem :=
  if !artwork.originalAvailable || artwork.originalSold then cart
  else
    addToCart cart
      { id := toString artwork.id ++ "-original"
        artworkId := artwork.id
        type := .original
        printSize := none
        quantity := 1
        unitPrice := artwork.originalPrice.getD 0 }

/-- Fixture for C9: an available, unsold original. -/
def artC9 : Artwork := ⟨1, "Sunset", "sunset", some 90, true, false, 0⟩

/-- C9 failing run: clicking "Add to Cart" twice on the same available
original merges the duplicate into one line item — but by adding the
quantities, so the cart holds an `original` line with quantity 2, not the
claimed "exactly 1". -/
theorem addToCart_original_quantity_not_one :
    handleAddOriginalToCart artC9 (handleAddOriginalToCart artC9 [])
      = [⟨"1-original", 1, PType.original, none, 2, 90⟩] ∧
    ∃ li ∈ handleAddOriginalToCart artC9 (handleAddOriginalToCart artC9 []),
      li.type = PType.original ∧ li.quantity ≠ 1 := by
  refine ⟨by decide, ⟨⟨"1-original", 1, PType.original, none, 2, 90⟩, ?_, rfl, by decide⟩⟩
  rw [show handleAddOriginalToCart artC9 (handleAddOriginalToCart artC9 [])
      = [⟨"1-original", 1, PType.original, none, 2, 90⟩] from by decide]
  simp

/-! Method `DatabaseStorage.deleteOrder` (`storage.ts` lines 458–466). -/

/-- Models `this.db` inside `DatabaseStorage.deleteOrder`: the class declares no
`db` member (the drizzle handle is a module-level import used directly by
every other method), so the property access yields `undefined`. -/
def databaseStorageDbMember : Option Unit := none

/-- Embeds `DatabaseStorage.deleteOrder`: calls `this.db.transaction(...)`, whose
body would delete the order's items and then the order. Because `this.db`
is `undefined`, the `.transaction` call throws a `TypeError` before the
transaction body runs; an error result carries no new state, so the
tables are untouched. -/
def deleteOrder (db : Db) (id : Nat) : Except DbError Db :=
  match databaseStorageDbMember with
  | none => .error .typeError
  | some _ =>
    .ok { db with
          orderItems := db.orderItems.filter (fun oi => oi.orderId ≠ id),
          orders := db.orders.filter (fun o => o.id ≠ id) }

/-- C10: for every database state and order id, `deleteOrder` throws the
`TypeError` from the `this.db` access and never returns a modified state:
the `orders` and `order_items` tables are unchanged. -/
theorem deleteOrder_always_fails (db : Db) (id : Nat) :
    deleteOrder db id = Except.error DbError.typeError ∧
    (deleteOrder db id).isOk = false :=
  ⟨rfl, rfl⟩

/-! Method `DatabaseStorage.reorderArtworks` (`storage.ts` lines 148–155). -/

/-- The body of `reorderArtworks` run against the artworks table: for each
position `i` an individual `UPDATE ... SET display_order = i WHERE id =
artworkIds[i]`, each committed on its own — there is no enclosing
transaction. Because any database call can fail, the loop carries a fault
oracle: `failAt = some k` makes the k-th UPDATE throw; the returned flag
records whether the loop ran to completion, and the returned table is the
state already committed at that point. -/
def reorderLoop (failAt : Option Nat) : Nat → List Nat → List Artwork → Bool × List Artwork
  | _, [], arts => (true, arts)
  | i, aid :: rest, arts =>
    if failAt = some i then (false, arts)
    else reorderLoop failAt (i + 1) rest
      (arts.map fun a => if a.id = aid then { a with displayOrder := (i : Int) } else a)

/-- A `reorderArtworks` call on which every UPDATE succeeds. -/
def reorderArtworks (ids : List Nat) (arts : List Artwork) : List Artwork :=
  (reorderLoop none 0 ids arts).2

/-- Fixture for C5/C8: a three-artwork catalog with display orders
0, 1, 2. -/
def artsC5 : List Artwork :=
  [⟨1, "A", "a", none, true, false, 0⟩,
   ⟨2, "B", "b", none, true, false, 1⟩,
   ⟨3, "C", "c", none, true, false, 2⟩]

/-- C5 failing run: reordering to `[3,1,2]` with the second UPDATE
failing. The error propagates, yet the committed state already carries
artwork 3's new `displayOrder = 0` while artworks 1 and 2 keep their old
values: a half-reordered catalog, equal neither to the original nor to
the fully reordered one, is left behind (and was committed, hence
observable). -/
theorem reorder_failure_leaves_mixed_order :
    (reorderLoop (some 1) 0 [3, 1, 2] artsC5).1 = false ∧
    (reorderLoop (some 1) 0 [3, 1, 2] artsC5).2
      = [⟨1, "A", "a", none, true, false, 0⟩,
         ⟨2, "B", "b", none, true, false, 1⟩,
         ⟨3, "C", "c", none, true, false, 0⟩] ∧
    (reorderLoop (some 1) 0 [3, 1, 2] artsC5).2 ≠ artsC5 ∧
    (reorderLoop (some 1) 0 [3, 1, 2] artsC5).2 ≠ reorderArtworks [3, 1, 2] artsC5 := by
  refine ⟨by decide, by decide, by decide, by decide⟩

/-! Route `GET /api/artworks` and the reorder round trip. -/

/-- The `ORDER BY display_order, id` comparison of
`DatabaseStorage.getAllArtworks`. -/
def leArt (a b : Artwork) : Bool :=
  decide (a.displayOrder < b.displayOrder ∨
    (a.displayOrder = b.displayOrder ∧ a.id ≤ b.id))

/-- Embeds `DatabaseStorage.getAllArtworks`: the artworks table sorted by
`(displayOrder, id)`. -/
def getAllArtworks (arts : List Artwork) : List Artwork :=
  arts.mergeSort leArt

theorem leArt_iff (a b : Artwork) :
    leArt a b = true ↔ (a.displayOrder < b.displayOrder ∨
      (a.displayOrder = b.displayOrder ∧ a.id ≤ b.id)) := by
  simp [leArt]

theorem leArt_trans : ∀ a b c : Artwork,
    leArt a b = true → leArt b c = true → leArt a c = true := by
  intro a b c hab hbc
  rw [leArt_iff] at *
  omega

theorem leArt_total : ∀ a b : Artwork, (leArt a b || leArt b a) = true := by
  intro a b
  rw [Bool.or_eq_true, leArt_iff, leArt_iff]
  omega

/-- What the per-row UPDATE loop computes when no call fails: each artwork
whose id occurs in the submitted list gets `displayOrder` = starting index
plus its position in the list. -/
theorem reorderLoop_none_eq : ∀ ids : List Nat, ids.Nodup →
    ∀ (k : Nat) (arts : List Artwork),
    (reorderLoop none k ids arts).2 = arts.map (fun a =>
      if a.id ∈ ids then
        { a with displayOrder := ((k + ids.indexOf a.id : Nat) : Int) }
      else a) := by
  intro ids
  induction ids with
  | nil =>
    intro _ k arts
    simp [reorderLoop]
  | cons x rest ih =>
    intro hnd k arts
    obtain ⟨hx, hrest⟩ := List.nodup_cons.mp hnd
    rw [reorderLoop, if_neg (by simp), ih hrest (k + 1), List.map_map]
    apply List.map_congr_left
    intro a _
    by_cases hax : a.id = x
    · simp [Function.comp, hax, hx, List.indexOf_cons_self]
    · by_cases har : a.id ∈ rest
      · have hxa : x ≠ a.id := fun h => hax h.symm
        simp only [Function.comp, if_neg hax, if_pos har,
          if_pos (List.mem_cons.mpr (Or.inr har)),
          List.indexOf_cons_ne rest hxa]
        simp [Artwork.mk.injEq]
        omega
      · simp [Function.comp, hax, har]

/-- Successful reorder over a catalog whose every id is listed: each
artwork's `displayOrder` becomes its position in the submitted list. -/
theorem reorderArtworks_eq (ids : List Nat) (arts : List Artwork)
    (hnd : ids.Nodup) (hall : ∀ a ∈ arts, a.id ∈ ids) :
    reorderArtworks ids arts
      = arts.map (fun a => { a with displayOrder := (ids.indexOf a.id : Int) }) := by
  rw [reorderArtworks, reorderLoop_none_eq ids hnd 0 arts]
  apply List.map_congr_left
  intro a ha
  rw [if_pos (hall a ha)]
  simp

/-- In a duplicate-free list, mapping every element to its own index gives
`0, 1, …, length-1` in order. -/
theorem map_indexOf_self {α : Type} [DecidableEq α] :
    ∀ l : List α, l.Nodup → l.map (fun x => l.indexOf x) = List.range l.length := by
  intro l
  induction l with
  | nil => simp
  | cons x rest ih =>
    intro hnd
    obtain ⟨hx, hrest⟩ := List.nodup_cons.mp hnd
    rw [List.map_cons, List.indexOf_cons_self, List.length_cons,
      List.range_succ_eq_map, ← ih hrest, List.map_map]
    congr 1
    apply List.map_congr_left
    intro y hy
    have hxy : x ≠ y := fun h => hx (h ▸ hy)
    simp [List.indexOf_cons_ne rest hxy, Nat.succ_eq_add_one]

/-- Collecting, for each listed id, the first table row carrying it
returns rows whose ids are the listed ids in order (provided every lookup
succeeds). -/
theorem filterMap_find?_map_id (st : List Artwork) :
    ∀ ids : List Nat,
      (∀ aid ∈ ids, ∃ a, st.find? (fun x => x.id = aid) = some a) →
      (ids.filterMap (fun aid => st.find? (fun x => x.id = aid))).map (fun a => a.id)
        = ids := by
  intro ids
  induction ids with
  | nil => simp
  | cons y rest ih =>
    intro h
    obtain ⟨a, ha⟩ := h y (by simp)
    have hyid : a.id = y := by simpa using List.find?_some ha
    rw [List.filterMap_cons, ha, List.map_cons, hyid,
      ih (fun aid haid => h aid (List.mem_cons.mpr (Or.inr haid)))]

/-- Sorting argument behind C8: a table whose rows carry duplicate-free
ids drawn exactly from `ids`, each row's `displayOrder` being its id's
position in `ids`, is returned by `getAllArtworks` in exactly the order
of `ids`. -/
theorem getAll_eq_ids (ids : List Nat) (st : List Artwork)
    (hidnd : ids.Nodup)
    (hstndid : (st.map (fun a => a.id)).Nodup)
    (hmem : ∀ x : Nat, x ∈ st.map (fun a => a.id) ↔ x ∈ ids)
    (hdO : ∀ a ∈ st, a.displayOrder = (ids.indexOf a.id : Int)) :
    (getAllArtworks st).map (fun a => a.id) = ids := by
  have hstnd : st.Nodup := List.Nodup.of_map _ hstndid
  have hmemid : ∀ aid ∈ ids, ∃ a ∈ st, a.id = aid := by
    intro aid haid
    obtain ⟨a, ha, ha2⟩ := List.mem_map.mp ((hmem aid).mpr haid)
    exact ⟨a, ha, ha2⟩
  have hfind : ∀ aid ∈ ids, ∃ a, st.find? (fun x => x.id = aid) = some a ∧
      a ∈ st ∧ a.id = aid := by
    intro aid haid
    obtain ⟨a, ha, haid'⟩ := hmemid aid haid
    have hsome : (st.find? (fun x => x.id = aid)).isSome :=
      List.find?_isSome.mpr ⟨a, ha, by simp [haid']⟩
    obtain ⟨b, hb⟩ := Option.isSome_iff_exists.mp hsome
    exact ⟨b, hb, List.mem_of_find?_eq_some hb, by simpa using List.find?_some hb⟩
  have hTmapid : (ids.filterMap (fun aid => st.find? (fun x => x.id = aid))).map
      (fun a => a.id) = ids :=
    filterMap_find?_map_id st ids
      (fun aid haid => (hfind aid haid).elim (fun a h => ⟨a, h.1⟩))
  have hTsub : ∀ b ∈ ids.filterMap (fun aid => st.find? (fun x => x.id = aid)),
      b ∈ st := by
    intro b hb
    obtain ⟨aid, _, hfa⟩ := List.mem_filterMap.mp hb
    exact List.mem_of_find?_eq_some hfa
  have hTsup : ∀ b ∈ st,
      b ∈ ids.filterMap (fun aid => st.find? (fun x => x.id = aid)) := by
    intro b hb
    have hbid : b.id ∈ ids := (hmem b.id).mp (List.mem_map_of_mem _ hb)
    obtain ⟨c, hc, hcmem, hcid⟩ := hfind b.id hbid
    have hcb : c = b := List.inj_on_of_nodup_map hstndid hcmem hb (by rw [hcid])
    exact List.mem_filterMap.mpr ⟨b.id, hbid, hcb ▸ hc⟩
  have hTnd : (ids.filterMap (fun aid => st.find? (fun x => x.id = aid))).Nodup :=
    List.Nodup.of_map _ (hTmapid ▸ hidnd)
  have hTperm : (ids.filterMap (fun aid => st.find? (fun x => x.id = aid))).Perm st :=
    List.perm_of_nodup_nodup_toFinset_eq hTnd hstnd
      (Finset.ext fun x => by
        rw [List.mem_toFinset, List.mem_toFinset]
        exact ⟨hTsub x, hTsup x⟩)
  have hTmapdO : (ids.filterMap (fun aid => st.find? (fun x => x.id = aid))).map
      (fun a => a.displayOrder)
      = (List.range ids.length).map (fun n : Nat => (n : Int)) := by
    have h1 : (ids.filterMap (fun aid => st.find? (fun x => x.id = aid))).map
        (fun a => a.displayOrder)
        = ((ids.filterMap (fun aid => st.find? (fun x => x.id = aid))).map
            (fun a => a.id)).map (fun i : Nat => ((ids.indexOf i : Nat) : Int)) := by
      rw [List.map_map]
      exact List.map_congr_left (fun a ha => hdO a (hTsub a ha))
    have h3 : ids.map (fun i : Nat => ((ids.indexOf i : Nat) : Int))
        = (ids.map (fun i : Nat => ids.indexOf i)).map (fun n : Nat => (n : Int)) := by
      rw [List.map_map]
      rfl
    rw [h1, hTmapid, h3, map_indexOf_self ids hidnd]
  have hTpair : (ids.filterMap (fun aid => st.find? (fun x => x.id = aid))).Pairwise
      (fun a b => a.displayOrder < b.displayOrder) := by
    have hr : List.Pairwise (fun x y : Int => x < y)
        ((List.range ids.length).map (fun n : Nat => (n : Int))) :=
      (List.pairwise_map).mpr
        ((List.pairwise_lt_range ids.length).imp (fun h => Int.ofNat_lt.mpr h))
    rw [← hTmapdO] at hr
    exact (List.pairwise_map).mp hr
  have hSperm : (getAllArtworks st).Perm st := List.mergeSort_perm st leArt
  have hSle : (getAllArtworks st).Pairwise (fun a b => leArt a b = true) :=
    List.sorted_mergeSort leArt_trans leArt_total st
  have hSnd : (getAllArtworks st).Nodup := hSperm.symm.nodup hstnd
  have hSpair : (getAllArtworks st).Pairwise
      (fun a b => a.displayOrder < b.displayOrder) := by
    refine List.Pairwise.imp_of_mem ?_ (hSle.and hSnd)
    intro a b ha hb hab
    obtain ⟨hle, hne⟩ := hab
    have ha' : a ∈ st := hSperm.subset ha
    have hb' : b ∈ st := hSperm.subset hb
    rcases (leArt_iff a b).mp hle with h | ⟨hdo, _⟩
    · exact h
    · exfalso
      apply hne
      have haid : a.id ∈ ids := (hmem a.id).mp (List.mem_map_of_mem _ ha')
      have hbid : b.id ∈ ids := (hmem b.id).mp (List.mem_map_of_mem _ hb')
      have hidx : ids.indexOf a.id = ids.indexOf b.id := by
        have h1 := hdO a ha'
        have h2 := hdO b hb'
        rw [h1, h2] at hdo
        exact_mod_cast hdo
      have hids : a.id = b.id := by
        have hla : ids.indexOf a.id < ids.length := List.indexOf_lt_length.mpr haid
        have hlb : ids.indexOf b.id < ids.length := List.indexOf_lt_length.mpr hbid
        have hga : ids.get ⟨ids.indexOf a.id, hla⟩ = a.id := List.indexOf_get hla
        have hgb : ids.get ⟨ids.indexOf b.id, hlb⟩ = b.id := List.indexOf_get hlb
        have hfin : (⟨ids.indexOf a.id, hla⟩ : Fin ids.length)
            = ⟨ids.indexOf b.id, hlb⟩ := Fin.ext hidx
        rw [← hga, ← hgb, hfin]
      exact List.inj_on_of_nodup_map hstndid ha' hb' hids
  have hanti : IsAntisymm Artwork (fun a b => a.displayOrder < b.displayOrder) :=
    ⟨fun a b h1 h2 => absurd (h1.trans h2) (lt_irrefl _)⟩
  have hfinal : getAllArtworks st
      = ids.filterMap (fun aid => st.find? (fun x => x.id = aid)) :=
    @List.eq_of_perm_of_sorted _ _ hanti _ _ (hSperm.trans hTperm.symm) hSpair hTpair
  rw [hfinal, hTmapid]

/-- C8: when the submitted id list is a permutation of the catalog's
(duplicate-free) ids, a successful reorder gives every listed artwork the
`displayOrder` equal to its position in the list, and
`GET /api/artworks` — which sorts by `(displayOrder, id)` — then returns
the catalog in exactly the submitted order. -/
theorem reorder_then_getAll_returns_submitted_order
    (arts : List Artwork) (ids : List Nat)
    (hnodup : (arts.map (fun a => a.id)).Nodup)
    (hperm : ids.Perm (arts.map (fun a => a.id))) :
    (∀ a ∈ reorderArtworks ids arts, a.displayOrder = (ids.indexOf a.id : Int)) ∧
    (getAllArtworks (reorderArtworks ids arts)).map (fun a => a.id) = ids := by
  have hidnd : ids.Nodup := hperm.symm.nodup hnodup
  have hall : ∀ a ∈ arts, a.id ∈ ids := fun a ha =>
    hperm.mem_iff.mpr (List.mem_map_of_mem _ ha)
  have heq : reorderArtworks ids arts
      = arts.map (fun a => { a with displayOrder := (ids.indexOf a.id : Int) }) :=
    reorderArtworks_eq ids arts hidnd hall
  have hid : (reorderArtworks ids arts).map (fun a => a.id)
      = arts.map (fun a => a.id) := by
    rw [heq, List.map_map]
    rfl
  have hdO : ∀ a ∈ reorderArtworks ids arts,
      a.displayOrder = (ids.indexOf a.id : Int) := by
    rw [heq]
    intro a ha
    obtain ⟨b, _, rfl⟩ := List.mem_map.mp ha
    rfl
  refine ⟨hdO, ?_⟩
  refine getAll_eq_ids ids (reorderArtworks ids arts) hidnd (hid ▸ hnodup) ?_ hdO
  intro x
  rw [hid]
  exact hperm.mem_iff.symm

/-- Witness for C8: submitting `[3,1,2]` over the three-artwork fixture
catalog makes `GET /api/artworks` return ids `[3,1,2]`. -/
theorem reorder_then_getAll_returns_submitted_order_witness :
    (∀ a ∈ reorderArtworks [3, 1, 2] artsC5,
      a.displayOrder = (([3, 1, 2] : List Nat).indexOf a.id : Int)) ∧
    (getAllArtworks (reorderArtworks [3, 1, 2] artsC5)).map (fun a => a.id)
      = [3, 1, 2] :=
  reorder_then_getAll_returns_submitted_order artsC5 [3, 1, 2]
    (by decide) (by decide)

/-! Slug generation (`schema.ts` `generateSlug`) and the uniqueness
loop of `DatabaseStorage.createArtwork`. -/

/-- Decimal rendering of a natural number, as JavaScript template
interpolation `${counter}` renders it. -/
def decChars (n : Nat) : List Char :=
  if _ : n < 10 then [Nat.digitChar n]
  else decChars (n / 10) ++ [Nat.digitChar (n % 10)]
decreasing_by exact Nat.div_lt_self (by omega) (by omega)

/-- Reads a decimal digit string back; inverse of `decChars`. -/
def decVal (cs : List Char) : Nat :=
  cs.foldl (fun a c => 10 * a + (c.toNat - 48)) 0

theorem decVal_decChars : ∀ n : Nat, decVal (decChars n) = n := by
  intro n
  induction n using Nat.strong_induction_on with
  | _ n ih =>
    by_cases h : n < 10
    · unfold decChars
      rw [dif_pos h]
      have hd : decVal [Nat.digitChar n] = (Nat.digitChar n).toNat - 48 := by
        simp [decVal]
      rw [hd]
      interval_cases n <;> decide
    · unfold decChars
      rw [dif_neg h]
      have h10 : n / 10 < n := Nat.div_lt_self (by omega) (by omega)
      have ihv := ih (n / 10) h10
      have hsplit : decVal (decChars (n / 10) ++ [Nat.digitChar (n % 10)])
          = 10 * decVal (decChars (n / 10)) + ((Nat.digitChar (n % 10)).toNat - 48) := by
        rw [decVal, List.foldl_append]
        rfl
      have hm : (Nat.digitChar (n % 10)).toNat - 48 = n % 10 := by
        have hlt : n % 10 < 10 := Nat.mod_lt _ (by omega)
        generalize hg : n % 10 = m at hlt ⊢
        interval_cases m <;> decide
      rw [hsplit, ihv, hm]
      omega

theorem decChars_inj (m n : Nat) (h : decChars m = decChars n) : m = n := by
  rw [← decVal_decChars m, ← decVal_decChars n, h]

theorem decChars_ne_nil (n : Nat) : decChars n ≠ [] := by
  unfold decChars
  split <;> simp

/-- A character the slug keeps: `[a-z0-9]`. -/
def isSlugChar (c : Char) : Bool :=
  ('a' ≤ c ∧ c ≤ 'z') ∨ ('0' ≤ c ∧ c ≤ '9')

/-- Collapses each run of consecutive dashes to a single dash (the `+` in
the regex `[^a-z0-9]+`, after every non-alphanumeric character has been
turned into a dash). -/
def squashDashes : List Char → List Char
  | [] => []
  | [c] => [c]
  | c :: d :: rest =>
    if c = '-' ∧ d = '-' then squashDashes (d :: rest)
    else c :: squashDashes (d :: rest)

/-- Removes leading and trailing dashes (the regex `^-+|-+$`). -/
def stripDashes (l : List Char) : List Char :=
  ((l.dropWhile (fun c => c = '-')).reverse.dropWhile (fun c => c = '-')).reverse

/-- Embeds `generateSlug` from `schema.ts`: lowercase the title, replace every
maximal run of characters outside `[a-z0-9]` with a single `-`, and strip
leading/trailing dashes. -/
def generateSlug (title : String) : String :=
  String.mk (stripDashes (squashDashes
    ((title.data.map Char.toLower).map (fun c => if isSlugChar c then c else '-'))))

/-- The k-th slug candidate that `createArtwork`'s collision loop tries:
the base slug itself, then `base-1`, `base-2`, …. -/
def slugCand (base : String) : Nat → String
  | 0 => base
  | k + 1 => base ++ "-" ++ String.mk (decChars (k + 1))

theorem string_data_append (s t : String) : (s ++ t).data = s.data ++ t.data := rfl

theorem slugCand_succ_data (base : String) (k : Nat) :
    (slugCand base (k + 1)).data = (base.data ++ ['-']) ++ decChars (k + 1) := by
  rw [slugCand, string_data_append, string_data_append]

theorem slugCand_inj (base : String) :
    ∀ i j : Nat, slugCand base i = slugCand base j → i = j := by
  have hbase : ∀ j : Nat, base ≠ slugCand base (j + 1) := by
    intro j h
    have hd := congrArg (fun s => s.data.length) h
    simp only [slugCand_succ_data, List.length_append] at hd
    have hne := decChars_ne_nil (j + 1)
    have : 0 < (decChars (j + 1)).length := List.length_pos.mpr hne
    omega
  intro i j h
  match i, j with
  | 0, 0 => rfl
  | 0, j + 1 => exact absurd h (hbase j)
  | i + 1, 0 => exact absurd h.symm (hbase i)
  | i + 1, j + 1 =>
    have hd := congrArg String.data h
    rw [slugCand_succ_data, slugCand_succ_data] at hd
    have := decChars_inj (i + 1) (j + 1) (List.append_cancel_left hd)
    omega

/-- Pigeonhole: among the first `used.length + 1` candidates, at least one
is not a used slug. -/
theorem exists_free_slugCand (used : List String) (base : String) :
    ∃ k : Nat, k ≤ used.length ∧ slugCand base k ∉ used := by
  by_contra hcon
  push_neg at hcon
  have hinj : Set.InjOn (fun k => slugCand base k)
      ↑(Finset.range (used.length + 1)) :=
    fun i _ j _ hij => slugCand_inj base i j hij
  have hsub : Finset.image (fun k => slugCand base k)
      (Finset.range (used.length + 1)) ⊆ used.toFinset := by
    intro s hs
    obtain ⟨k, hk, rfl⟩ := Finset.mem_image.mp hs
    exact List.mem_toFinset.mpr (hcon k (by
      have := Finset.mem_range.mp hk
      omega))
  have hcard := Finset.card_le_card hsub
  rw [Finset.card_image_of_injOn hinj, Finset.card_range] at hcard
  have := List.toFinset_card_le used
  omega

/-- Embeds `DatabaseStorage.getArtworkBySlug`: first artworks row with the given
slug (the column is unique, so first = only). -/
def getArtworkBySlug (arts : List Artwork) (slug : String) : Option Artwork :=
  arts.find? (fun a => a.slug = slug)

/-- The `while (true)` collision loop of `DatabaseStorage.createArtwork`,
carrying the current candidate and the counter, fuelled (the fuel is an
embedding artifact; `findUniqueSlug_spec` shows `arts.length` fuel always
suffices, so the loop always terminates with a slug):
`while (true) { if (!(await getArtworkBySlug(finalSlug))) break;
finalSlug = slug-counter; counter++ }`. -/
def slugLoop (arts : List Artwork) (base : String) :
    Nat → Nat → String → Option String
  | 0, _, current =>
    match getArtworkBySlug arts current with
    | none => some current
    | some _ => none
  | fuel + 1, counter, current =>
    match getArtworkBySlug arts current with
    | none => some current
    | some _ => slugLoop arts base fuel (counter + 1) (slugCand base counter)

/-- The collision-resolution of `createArtwork`: starting from the base
slug with `counter = 1`. -/
def findUniqueSlug (arts : List Artwork) (base : String) : Option String :=
  slugLoop arts base arts.length 1 base

theorem slugLoop_spec (arts : List Artwork) (base : String) :
    ∀ fuel c : Nat,
      (∃ j : Nat, j ≤ fuel ∧ getArtworkBySlug arts (slugCand base (c + j)) = none) →
      ∃ s, slugLoop arts base fuel (c + 1) (slugCand base c) = some s ∧
        getArtworkBySlug arts s = none ∧ ∃ k, s = slugCand base k := by
  intro fuel
  induction fuel with
  | zero =>
    intro c h
    obtain ⟨j, hj, hfree⟩ := h
    have hj0 : j = 0 := by omega
    subst hj0
    simp only [Nat.add_zero] at hfree
    exact ⟨slugCand base c, by simp [slugLoop, hfree], hfree, c, rfl⟩
  | succ fuel ih =>
    intro c h
    cases hcur : getArtworkBySlug arts (slugCand base c) with
    | none =>
      exact ⟨slugCand base c, by simp [slugLoop, hcur], hcur, c, rfl⟩
    | some a =>
      obtain ⟨j, hj, hfree⟩ := h
      match j, hj with
      | 0, _ =>
        rw [Nat.add_zero] at hfree
        exact absurd hfree (by simp [hcur])
      | j' + 1, hj =>
        have hnext : ∃ j : Nat, j ≤ fuel ∧
            getArtworkBySlug arts (slugCand base (c + 1 + j)) = none := by
          refine ⟨j', by omega, ?_⟩
          rw [show c + 1 + j' = c + (j' + 1) by omega]
          exact hfree
        obtain ⟨s, hs, hsnone, hk⟩ := ih (c + 1) hnext
        exact ⟨s, by simp only [slugLoop, hcur]; exact hs, hsnone, hk⟩

/-- The collision loop always succeeds, returning a slug that no existing
artwork carries, of the shape `base` or `base-k`. -/
theorem findUniqueSlug_spec (arts : List Artwork) (base : String) :
    ∃ s, findUniqueSlug arts base = some s ∧
      (∀ a ∈ arts, a.slug ≠ s) ∧ ∃ k, s = slugCand base k := by
  obtain ⟨k, hk, hfree⟩ :=
    exists_free_slugCand (arts.map (fun a => a.slug)) base
  have hnone : getArtworkBySlug arts (slugCand base k) = none := by
    rw [getArtworkBySlug, List.find?_eq_none]
    intro a ha hcontra
    exact hfree (List.mem_map.mpr ⟨a, ha, by simpa using hcontra⟩)
  obtain ⟨s, hs, hsnone, hcand⟩ := slugLoop_spec arts base arts.length 0
    ⟨k, by simpa using hk, by simpa using hnone⟩
  refine ⟨s, hs, ?_, hcand⟩
  rw [getArtworkBySlug, List.find?_eq_none] at hsnone
  intro a ha h
  exact hsnone a ha (by simp [h])

/-- The artwork fields accepted by `POST /api/artworks` (the insert shape,
`id` supplied by the serial sequence; the route computes `slug` itself,
`DatabaseStorage.createArtwork` falls back to `generateSlug(title)` when
it is absent or empty). -/
structure InsertArtwork where
  title : String
  slug : Option String
  originalPrice : Option ℚ
  originalAvailable : Bool
  originalSold : Bool
  displayOrder : Int
deriving DecidableEq, Repr

/-- Embeds `artworkData.slug || generateSlug(artworkData.title)` — JavaScript
`||`, under which the empty string falls through to the fallback. -/
def slugBase (data : InsertArtwork) : String :=
  match data.slug with
  | some s => if s = "" then generateSlug data.title else s
  | none => generateSlug data.title

/-- Embeds `DatabaseStorage.createArtwork`: resolve a unique slug through the
collision loop, then insert the row and return it. (`none` would mean the
fuelled loop ran out, which `findUniqueSlug_spec` rules out.) -/
def createArtwork (db : Db) (data : InsertArtwork) : Option (Db × Artwork) :=
  match findUniqueSlug db.artworks (slugBase data) with
  | none => none
  | some finalSlug =>
    let a : Artwork :=
      { id := db.nextArtworkId
        title := data.title
        slug := finalSlug
        originalPrice := data.originalPrice
        originalAvailable := data.originalAvailable
        originalSold := data.originalSold
        displayOrder := data.displayOrder }
    some ({ db with artworks := db.artworks ++ [a],
                    nextArtworkId := db.nextArtworkId + 1 }, a)

/-- C6: creating an artwork always succeeds with a slug that collides with
no existing artwork's slug — the base slug generated from the title, or
the base with an incrementing numeric suffix — and creating twice with
the same data (in particular, identical titles) yields two distinct
slugs. The hypothesis pins the route's behaviour of sending
`slug = generateSlug(title)` (the storage fallback for an absent slug is
the same), so both creations resolve collisions against the same
title-derived base. -/
theorem createArtwork_slug_unique (db : Db) (data : InsertArtwork)
    (hroute : data.slug = some (generateSlug data.title) ∨ data.slug = none) :
    ∃ (db1 : Db) (a1 : Artwork) (db2 : Db) (a2 : Artwork),
      createArtwork db data = some (db1, a1) ∧
      createArtwork db1 data = some (db2, a2) ∧
      (∀ a ∈ db.artworks, a.slug ≠ a1.slug) ∧
      (∀ a ∈ db1.artworks, a.slug ≠ a2.slug) ∧
      a1.slug ≠ a2.slug ∧
      (∃ k, a1.slug = slugCand (generateSlug data.title) k) ∧
      (∃ k, a2.slug = slugCand (generateSlug data.title) k) := by
  have hbase : slugBase data = generateSlug data.title := by
    rcases hroute with h | h
    · simp only [slugBase, h]
      by_cases he : generateSlug data.title = ""
      · rw [if_pos he]
      · rw [if_neg he]
    · simp only [slugBase, h]
  obtain ⟨s1, hs1, hfree1, hcand1⟩ := findUniqueSlug_spec db.artworks (slugBase data)
  set a1 : Artwork :=
    { id := db.nextArtworkId, title := data.title, slug := s1,
      originalPrice := data.originalPrice,
      originalAvailable := data.originalAvailable,
      originalSold := data.originalSold,
      displayOrder := data.displayOrder } with ha1
  set db1 : Db := { db with artworks := db.artworks ++ [a1],
                            nextArtworkId := db.nextArtworkId + 1 } with hdb1
  have hc1 : createArtwork db data = some (db1, a1) := by
    rw [createArtwork, hs1]
  obtain ⟨s2, hs2, hfree2, hcand2⟩ := findUniqueSlug_spec db1.artworks (slugBase data)
  set a2 : Artwork :=
    { id := db1.nextArtworkId, title := data.title, slug := s2,
      originalPrice := data.originalPrice,
      originalAvailable := data.originalAvailable,
      originalSold := data.originalSold,
      displayOrder := data.displayOrder } with ha2
  set db2 : Db := { db1 with artworks := db1.artworks ++ [a2],
                             nextArtworkId := db1.nextArtworkId + 1 } with hdb2
  have hc2 : createArtwork db1 data = some (db2, a2) := by
    rw [createArtwork, hs2]
  have ha1mem : a1 ∈ db1.artworks := by
    rw [hdb1]
    simp
  have hdistinct : a1.slug ≠ a2.slug := hfree2 a1 ha1mem
  exact ⟨db1, a1, db2, a2, hc1, hc2, hfree1, hfree2, hdistinct,
    hbase ▸ hcand1, hbase ▸ hcand2⟩

/-- Witness for C6 on an empty catalog: two artworks titled "Sunset" get
slugs `sunset` and `sunset-1` — distinct and non-colliding. -/
theorem createArtwork_slug_unique_witness :
    ∃ (db1 : Db) (a1 : Artwork) (db2 : Db) (a2 : Artwork),
      createArtwork
          { artworks := [], customers := [], orders := [], orderItems := [],
            nextArtworkId := 1, nextCustomerId := 1, nextOrderId := 1,
            nextOrderItemId := 1 }
          ⟨"Sunset", some (generateSlug "Sunset"), some 90, true, false, 0⟩
        = some (db1, a1) ∧
      createArtwork db1
          ⟨"Sunset", some (generateSlug "Sunset"), some 90, true, false, 0⟩
        = some (db2, a2) ∧
      (∀ a ∈ ([] : List Artwork), a.slug ≠ a1.slug) ∧
      (∀ a ∈ db1.artworks, a.slug ≠ a2.slug) ∧
      a1.slug ≠ a2.slug ∧
      (∃ k, a1.slug = slugCand (generateSlug "Sunset") k) ∧
      (∃ k, a2.slug = slugCand (generateSlug "Sunset") k) :=
  createArtwork_slug_unique
    { artworks := [], customers := [], orders := [], orderItems := [],
      nextArtworkId := 1, nextCustomerId := 1, nextOrderId := 1,
      nextOrderItemId := 1 }
    ⟨"Sunset", some (generateSlug "Sunset"), some 90, true, false, 0⟩
    (Or.inl rfl)

end HAG
